import Mathlib

/-!
Verification development for the NWGraph docstring audit engine
(`scripts/audit_docstrings.py`).

The Python source is shallowly embedded: every definition below is a
direct translation of a function (or an inline code block) of the source
file.  Python regular expressions are translated into explicit character
scanners over `List Char`; each scanner's doc comment cites the regex it
implements, and where the translation relies on an equivalence (greedy
quantifier followed by a disjoint-character class behaves as maximal
munch, etc.) the comment spells that out.  Python strings are `String` /
`List Char`, Python ints are `Nat` (`Int` where a counter can go
negative), Python `None` is `Option`, and a Python exception is an
`Option`/`Except` failure.
-/

/-- Python's `\s` / `str.strip()` whitespace set, restricted to ASCII
(the audited inputs are ASCII source files). -/
def pyWs (c : Char) : Bool :=
  c = ' ' || c = '\t' || c = '\n' || c = '\r' || c = '\x0b' || c = '\x0c'

/-- Python's `\w` word-character class, restricted to ASCII. -/
def pyWord (c : Char) : Bool :=
  c.isAlphanum || c = '_'

/-- Length of the leading run of whitespace (the maximal-munch reading of
a greedy `\s*` / `\s+` whose continuation cannot start with whitespace). -/
def wsRun (l : List Char) : Nat :=
  (l.takeWhile pyWs).length

/-- Length of the leading run of word characters (maximal-munch `\w+`). -/
def wordRun (l : List Char) : Nat :=
  (l.takeWhile pyWord).length

/-- Python `str.strip()`: drop leading and trailing whitespace. -/
def pyStrip (l : List Char) : List Char :=
  ((l.dropWhile pyWs).reverse.dropWhile pyWs).reverse

/-- Python `needle in haystack` (substring containment). -/
def hasSub (pat : List Char) : List Char → Bool
  | [] => pat.isEmpty
  | c :: rest => pat.isPrefixOf (c :: rest) || hasSub pat rest

/-- Python `str.split('\n')`: always returns one more part than there are
newline characters; `"".split('\n') == [""]`. -/
def pySplitNL : List Char → List (List Char)
  | [] => [[]]
  | c :: r =>
    if c = '\n' then [] :: pySplitNL r
    else
      match pySplitNL r with
      | h :: t => (c :: h) :: t
      | [] => [[c]]

/-- The lazy capture `(.+?)(?=STOP|$)` of the tag-parsing regexes
(`re.DOTALL`, so `.` matches every character): capture at least one
character and stop at the first position where the `stop` lookahead
holds; the `$` alternative of the lookahead makes the end of the string
always a stop, so the scan terminates at the latest on the empty
suffix. -/
def lazyCap (stop : List Char → Bool) : List Char → List Char
  | [] => []
  | c :: rest => if stop rest then [c] else c :: lazyCap stop rest

/-- Lookahead `(?=[@\\](?:kw1|kw2|...)|$)` at a remaining suffix `w`:
either a tag marker (an `@` or `\` followed by one of the keywords)
starts at `w`, or `w` is the end of the string, or `w` is the final
newline of the string (Python's `$` without `re.MULTILINE` also matches
just before a trailing newline). -/
def tagStop (kws : List (List Char)) (w : List Char) : Bool :=
  (match w with
   | [] => true
   | c :: rest => (c = '@' || c = '\\') && kws.any (fun k => k.isPrefixOf rest))
  || w = ['\n']

/-- Keyword set of the lookahead in the `@brief` regex
(`param|tparam|return|example|note|see|code`). -/
def briefStopKws : List (List Char) :=
  ["param".data, "tparam".data, "return".data, "example".data,
   "note".data, "see".data, "code".data]

/-- Keyword set of the lookahead in the `@param` / `@tparam` regexes
(`param|tparam|return|example`). -/
def paramStopKws : List (List Char) :=
  ["param".data, "tparam".data, "return".data, "example".data]

/-- Keyword set of the lookahead in the `@return` regex
(`param|tparam|example|note|see`). -/
def returnStopKws : List (List Char) :=
  ["param".data, "tparam".data, "return".data, "example".data,
   "note".data, "see".data]

/-- `re.search(r'[@\\]KW\s+(.+?)(?=LOOKAHEAD|$)', comment, re.DOTALL)`,
returning the first capture group of the leftmost match, or `none`.
Used for `@brief` (source line 112) and `@return` (source line 128).

Scanning left to right, a match starts at a position holding `@` or `\`
followed by the keyword; `\s+` is maximal munch because shrinking it
leaves a whitespace character for `.+?` whose following lookahead test
is unchanged only when the shrink is forced (`\s+` consumed the whole
rest of the string, in which case the engine backtracks one whitespace
character so that `.+?` can capture it and `$` closes the match). -/
def searchTagCapture (kw : List Char) (stop : List Char → Bool) :
    List Char → Option (List Char)
  | [] => none
  | t@(c :: rest) =>
    if (c = '@' || c = '\\') && kw.isPrefixOf rest then
      let after := t.drop (1 + kw.length)
      let k := wsRun after
      if k = 0 then searchTagCapture kw stop rest
      else
        let a := after.drop k
        if a ≠ [] then some (lazyCap stop a)
        else if 2 ≤ k then some [after.getD (k - 1) ' ']
        else searchTagCapture kw stop rest
    else searchTagCapture kw stop rest

/-- One step of
`re.finditer(r'[@\\]KW\s+(\w+)\s+(.+?)(?=LOOKAHEAD|$)', comment, re.DOTALL)`
(source lines 118 and 123): scan for the leftmost match, return both
capture groups and the suffix remaining after the match end, so the
caller can resume the scan there (`finditer` yields non-overlapping
matches, each search resuming at the previous match end). -/
def findTagPairOnce (kw : List Char) (stop : List Char → Bool) :
    List Char → Option ((List Char × List Char) × List Char)
  | [] => none
  | t@(c :: rest) =>
    if (c = '@' || c = '\\') && kw.isPrefixOf rest then
      let after := t.drop (1 + kw.length)
      let k1 := wsRun after
      let b := after.drop k1
      let w := wordRun b
      let name := b.take w
      let c2 := b.drop w
      let k2 := wsRun c2
      let d := c2.drop k2
      if k1 = 0 || w = 0 || k2 = 0 then findTagPairOnce kw stop rest
      else if d ≠ [] then
        let cap := lazyCap stop d
        some ((name, cap), d.drop cap.length)
      else if 2 ≤ k2 then
        some ((name, [c2.getD (k2 - 1) ' ']), [])
      else findTagPairOnce kw stop rest
    else findTagPairOnce kw stop rest

/-- All matches of the `@param` / `@tparam` finditer loop, in text order.
Fuel is the length of the text plus one; every match consumes at least
one character, so the fuel suffices. -/
def findTagPairs (kw : List Char) (stop : List Char → Bool) :
    Nat → List Char → List (List Char × List Char)
  | 0, _ => []
  | fuel + 1, t =>
    match findTagPairOnce kw stop t with
    | none => []
    | some (pair, rem) =>
      if rem.length < t.length then pair :: findTagPairs kw stop fuel rem
      else [pair]

/-- The tag map built by `parse_comment_tags` (source lines 98-106): a
Python dict with the seven fixed keys `brief`, `param`, `tparam`,
`return`, `example`, `note`, `see`, each holding a list that the parser
appends to.  `return` is spelled `ret` and `example` is spelled
`exampleTag` because both words are Lean keywords; `note` and `see` are
initialized and never appended to by any code path. -/
structure Tags where
  brief : List String
  param : List (String × String)
  tparam : List (String × String)
  ret : List String
  exampleTag : List Bool
  note : List String
  see : List String
deriving DecidableEq, Repr

/-- The empty tag map (the dict literal at source lines 98-106). -/
def emptyTags : Tags :=
  ⟨[], [], [], [], [], [], []⟩

/-- `re.search(r'[@\\]example', comment)` (source line 134): presence of
an example tag marker anywhere in the text. -/
def exampleSearch (cs : List Char) : Bool :=
  hasSub "@example".data cs || hasSub "\\example".data cs

/-- `parse_comment_tags` (source lines 96-137).  `@brief` and `@return`
are looked up with `re.search`, so at most the first occurrence is
appended; `@param` and `@tparam` use `re.finditer`, appending one
`(name, description)` pair per match; `@example` is recorded as a pure
presence flag.  Captured descriptions are stripped
(`match.group(1).strip()`); the empty comment returns the empty map at
once (`if not comment`). -/
def parse_comment_tags (comment : String) : Tags :=
  if comment = "" then emptyTags
  else
    let cs := comment.data
    { brief :=
        match searchTagCapture "brief".data (tagStop briefStopKws) cs with
        | some cap => [String.mk (pyStrip cap)]
        | none => []
      param :=
        (findTagPairs "param".data (tagStop paramStopKws) (cs.length + 1) cs).map
          (fun p => (String.mk p.1, String.mk (pyStrip p.2)))
      tparam :=
        (findTagPairs "tparam".data (tagStop paramStopKws) (cs.length + 1) cs).map
          (fun p => (String.mk p.1, String.mk (pyStrip p.2)))
      ret :=
        match searchTagCapture "return".data (tagStop returnStopKws) cs with
        | some cap => [String.mk (pyStrip cap)]
        | none => []
      exampleTag := if exampleSearch cs then [true] else []
      note := []
      see := [] }

/-- `lines[i].strip().startswith('///')` (source line 77). -/
def isTripleSlash (l : List Char) : Bool :=
  "///".data.isPrefixOf (pyStrip l)

/-- The blank-skipping loop of `extract_doxygen_comment` (source lines
65-67): walk backward from index `i` over blank lines; return the first
index holding a non-blank line, or `none` when the walk runs off the top
of the file (Python's `i < 0`). -/
def firstNonblankDown (lines : List (List Char)) : Nat → Option Nat
  | 0 => if pyStrip (lines.getD 0 []) = [] then none else some 0
  | i + 1 =>
    if pyStrip (lines.getD (i + 1) []) = [] then firstNonblankDown lines i
    else some (i + 1)

/-- The `///` collection loop of `extract_doxygen_comment` (source lines
77-79): the maximal run of consecutive `///` lines ending at index `i`,
in file order (Python builds the same list with `insert(0, ...)` while
walking backward). -/
def runAt (lines : List (List Char)) : Nat → List (List Char)
  | 0 => if isTripleSlash (lines.getD 0 []) then [lines.getD 0 []] else []
  | i + 1 =>
    if isTripleSlash (lines.getD (i + 1) []) then
      runAt lines i ++ [lines.getD (i + 1) []]
    else []

/-- The unbounded backward `/**` search of `extract_doxygen_comment`
(source lines 87-92): the largest index `j ≤ i` whose line contains
`/**`, or `none`. -/
def findOpenUp (lines : List (List Char)) : Nat → Option Nat
  | 0 => if hasSub "/**".data (lines.getD 0 []) then some 0 else none
  | i + 1 =>
    if hasSub "/**".data (lines.getD (i + 1) []) then some (i + 1)
    else findOpenUp lines i

/-- `'\n'.join(ls)`. -/
def joinNL (ls : List (List Char)) : List Char :=
  List.intercalate ['\n'] ls

/-- `lines[s..e]` inclusive. -/
def sliceLines (lines : List (List Char)) (s e : Nat) : List (List Char) :=
  (lines.drop s).take (e + 1 - s)

/-- `extract_doxygen_comment(lines, end_line)` (source lines 59-94):
starting at `end_line - 1`, skip blank lines; if the first non-blank
line starts a `///` run, return the maximal contiguous run (text joined
with newlines, start index, end index); otherwise, if that line contains
`*/`, search backward without bound for a line containing `/**` and
return the enclosed block; otherwise `none`.  `end_line = 0` makes the
Python loop start at index `-1` and fall through to `return None`.
Out-of-range indices cannot arise at the call sites (callers pass the
0-based index of a declaration line), so `getD` stands in for Python's
checked indexing. -/
def extract_doxygen_comment (lines : List (List Char)) (end_line : Nat) :
    Option (List Char × Nat × Nat) :=
  if end_line = 0 then none
  else
    match firstNonblankDown lines (end_line - 1) with
    | none => none
    | some i =>
      let r := runAt lines i
      if r ≠ [] then some (joinNL r, i + 1 - r.length, i)
      else if hasSub "*/".data (lines.getD i []) then
        match findOpenUp lines i with
        | some j => some (joinNL (sliceLines lines j i), j, i)
        | none => none
      else none

/-- `re.search(r'template\s*<([^>]+)>', declaration)` (source line 143),
returning the capture (the angle-bracket content).  `[^>]+` is greedy
over non-`>` characters, so it reaches exactly the first `>` after the
`<`; at least one character is required between the brackets. -/
def searchTemplateContent : List Char → Option (List Char)
  | [] => none
  | t@(_ :: rest) =>
    if "template".data.isPrefixOf t then
      let r1 := t.drop 8
      let r2 := r1.drop (wsRun r1)
      match r2 with
      | '<' :: r3 =>
        let b := (r3.takeWhile (· ≠ '>')).length
        if b = 0 then searchTemplateContent rest
        else
          match r3.drop b with
          | '>' :: _ => some (r3.take b)
          | _ => searchTemplateContent rest
      | _ => searchTemplateContent rest
    else searchTemplateContent rest

/-- One match of
`re.finditer(r'(?:typename|class|auto|\w+)\s+(\w+)(?:\s*=|,|$)', tc)`
(source line 148), returning the capture and the remaining suffix after
the match end.  The leading alternation is equivalent to a maximal `\w+`
run: the literal alternatives are themselves word runs and must be
followed by `\s+`, which only succeeds when the run is maximal.  The
trailing group tries `\s*=` (maximal whitespace, then a literal `=`),
then a literal comma immediately after the capture, then `$` (end of the
content, which contains no newline since it came from `[^>]+` inside a
single `<...>`; the matched span for `$` is empty). -/
def templateP1Once : List Char → Option (List Char × List Char)
  | [] => none
  | t@(c :: rest) =>
    if pyWord c then
      let a := wordRun t
      let r1 := t.drop a
      let k := wsRun r1
      if k = 0 then templateP1Once rest
      else
        let r2 := r1.drop k
        let w := wordRun r2
        if w = 0 then templateP1Once rest
        else
          let name := r2.take w
          let r3 := r2.drop w
          let ke := wsRun r3
          match r3.drop ke with
          | '=' :: r4 => some (name, r4)
          | _ =>
            match r3 with
            | ',' :: r4 => some (name, r4)
            | [] => some (name, [])
            | _ => templateP1Once rest
    else templateP1Once rest

/-- All matches of the first template-parameter loop, in text order. -/
def templateP1 : Nat → List Char → List (List Char)
  | 0, _ => []
  | fuel + 1, t =>
    match templateP1Once t with
    | none => []
    | some (name, rem) =>
      if rem.length < t.length then name :: templateP1 fuel rem
      else [name]

/-- One match of
`re.finditer(r'(?:size_t|int|bool|auto)\s+(\w+)', tc)` (source line
151): one of the four literal keywords (they are pairwise prefix-free,
so alternation order never matters), then at least one whitespace
character, then the captured word run. -/
def templateP2Once : List Char → Option (List Char × List Char)
  | [] => none
  | t@(_ :: rest) =>
    let tryKw : List Char → Option (List Char × List Char) := fun kw =>
      if kw.isPrefixOf t then
        let r1 := t.drop kw.length
        let k := wsRun r1
        if k = 0 then none
        else
          let r2 := r1.drop k
          let w := wordRun r2
          if w = 0 then none else some (r2.take w, r2.drop w)
      else none
    match tryKw "size_t".data <|> tryKw "int".data <|> tryKw "bool".data
        <|> tryKw "auto".data with
    | some res => some res
    | none => templateP2Once rest

/-- All matches of the second template-parameter loop, in text order. -/
def templateP2 : Nat → List Char → List (List Char)
  | 0, _ => []
  | fuel + 1, t =>
    match templateP2Once t with
    | none => []
    | some (name, rem) =>
      if rem.length < t.length then name :: templateP2 fuel rem
      else [name]

/-- The first `for param in re.finditer(...)` loop of
`extract_template_params` (source lines 148-149): every first-loop match
is appended unconditionally. -/
def templateFirstPass (declaration : String) : List String :=
  match searchTemplateContent declaration.data with
  | none => []
  | some tc => (templateP1 (tc.length + 1) tc).map String.mk

/-- The matches fed to the second loop of `extract_template_params`
(source line 151); the membership guard is applied by the fold in
`extract_template_params`, not here (`finditer` enumerates matches
independently of the accumulated list). -/
def templateSecondMatches (declaration : String) : List String :=
  match searchTemplateContent declaration.data with
  | none => []
  | some tc => (templateP2 (tc.length + 1) tc).map String.mk

/-- `extract_template_params` (source lines 139-154): the first loop's
captures, then the second loop's captures filtered by
`if param.group(1) not in params` against the accumulated list. -/
def extract_template_params (declaration : String) : List String :=
  (templateSecondMatches declaration).foldl
    (fun params n => if n ∈ params then params else params ++ [n])
    (templateFirstPass declaration)

/-- The backtracking search of `re.sub(r'\s*=\s*.+$', '', param_decl)`
(source line 209), which strips a default-value suffix.  `.` does not
match a newline (no `re.DOTALL` here) and `$` matches at the end of the
string or just before a trailing final newline.  At a candidate `=`
sign the engine tries the second `\s*` greedily and shrinks it until
`.+` can reach a `$` position; each candidate length is tried from the
maximal whitespace run downward.  Returns the length consumed after the
`=`, or `none`. -/
def subDefaultAfterEq (u : List Char) : Nat → Option Nat
  | 0 =>
    let m := (u.takeWhile (· ≠ '\n')).length
    if 1 ≤ m && (u.drop m = [] || u.drop m = ['\n']) then some m else none
  | k + 1 =>
    let v := u.drop (k + 1)
    let m := (v.takeWhile (· ≠ '\n')).length
    if 1 ≤ m && (v.drop m = [] || v.drop m = ['\n']) then some (k + 1 + m)
    else subDefaultAfterEq u k

/-- Scanning loop of `re.sub(r'\s*=\s*.+$', '', param_decl)`: walk the
string looking for the leftmost match start (a maximal whitespace run
ending at an `=` that admits a completion); `acc` holds the already-kept
prefix reversed. -/
def pySubDefaultGo : List Char → List Char → List Char
  | [], acc => acc.reverse
  | t@(c :: rest), acc =>
    let k := wsRun t
    match t.drop k with
    | '=' :: u =>
      match subDefaultAfterEq u (wsRun u) with
      | some consumed => acc.reverse ++ u.drop consumed
      | none => pySubDefaultGo rest (c :: acc)
    | _ => pySubDefaultGo rest (c :: acc)

/-- `re.sub(r'\s*=\s*.+$', '', param_decl)` (source line 209): delete the
leftmost matched span.  After a successful match the remaining suffix is
empty or a single final newline, so no second replacement can follow;
the failure case returns the input unchanged. -/
def pySubDefault (s : List Char) : List Char :=
  pySubDefaultGo s []

/-- `re.search(r'(\w+)\s*$', param_decl)` (source line 215): the leftmost
word run that is followed only by whitespace up to the end of the
string.  A position inside such a run fails exactly when the run's start
fails, so scanning character by character is faithful. -/
def lastWordSearch : List Char → Option (List Char)
  | [] => none
  | t@(c :: rest) =>
    if pyWord c then
      let run := t.takeWhile pyWord
      if (t.drop run.length).all pyWs then some run
      else lastWordSearch rest
    else lastWordSearch rest

/-- The bare type keywords rejected as parameter names (source line 219). -/
def typeKeywords : List String :=
  ["const", "auto", "void", "int", "size_t", "bool", "float", "double"]

/-- `extract_param_name` (source lines 203-221): strip a default-value
suffix, strip whitespace, take the trailing identifier, and reject bare
type keywords. -/
def extract_param_name (param_decl : List Char) : Option String :=
  if param_decl = [] then none
  else
    let p1 := pySubDefault param_decl
    let p2 := pyStrip p1
    match lastWordSearch p2 with
    | none => none
    | some w =>
      let name := String.mk w
      if name ∈ typeKeywords then none else some name

/-- The first scanning loop of `extract_function_params` (source lines
165-175): collect the characters between the opening parenthesis and its
balanced closing parenthesis.  The depth is updated before the append
test, so the final closing parenthesis (depth reaching 0) is not
collected while nested parentheses are. -/
def collectParen : List Char → Int → List Char
  | [], _ => []
  | c :: rest, depth =>
    let d := if c = '(' then depth + 1 else if c = ')' then depth - 1 else depth
    if 0 < d then c :: collectParen rest d else []

/-- The comma-splitting loop of `extract_function_params` (source lines
179-193): split only at commas at angle-bracket/parenthesis depth zero;
the depth-affecting characters themselves are kept in the fragments and
the splitting commas are dropped. -/
def splitFrags : List Char → Int → List Char → List (List Char)
  | [], _, cur => [cur]
  | c :: rest, depth, cur =>
    if c = '<' || c = '(' then splitFrags rest (depth + 1) (cur ++ [c])
    else if c = '>' || c = ')' then splitFrags rest (depth - 1) (cur ++ [c])
    else if c = ',' && depth = 0 then cur :: splitFrags rest depth []
    else splitFrags rest depth (cur ++ [c])

/-- `declaration.find('(')`: the suffix starting after the first `(`, or
`none`. -/
def afterFirstParen : List Char → Option (List Char)
  | [] => none
  | c :: rest => if c = '(' then some rest else afterFirstParen rest

/-- `extract_function_params` (source lines 156-201): take the balanced
parenthesized parameter text, split it on top-level commas, and extract
each fragment's parameter name.  Every fragment (including the last) is
stripped and passed to `extract_param_name`, and fragments without a
name are dropped — `extract_param_name` returns `None` on the empty
string, so the source's extra `if current_param.strip():` guard on the
last fragment does not change the result. -/
def extract_function_params (declaration : String) : List String :=
  match afterFirstParen declaration.data with
  | none => []
  | some rest =>
    let content := collectParen rest 1
    (splitFrags content 0 []).filterMap (fun frag => extract_param_name (pyStrip frag))

/-- The `template\s*<[^>]+>\s*` segment shared by the concept, class and
function patterns (source lines 256, 265, 294, 331), starting at the
current position: the literal `template`, optional whitespace, `<`, at
least one non-`>` character up to the first `>`, the `>`, then trailing
whitespace.  Returns the remaining suffix.  The function pattern's extra
`\n?` after `\s*` never changes the end position because the greedy
`\s*` already absorbs any newline. -/
def parseTemplateHeader (rest : List Char) : Option (List Char) :=
  if "template".data.isPrefixOf rest then
    let r1 := rest.drop 8
    let r2 := r1.drop (wsRun r1)
    match r2 with
    | '<' :: r3 =>
      let b := (r3.takeWhile (· ≠ '>')).length
      if b = 0 then none
      else
        match r3.drop b with
        | '>' :: r4 => some (r4.drop (wsRun r4))
        | _ => none
    | _ => none
  else none

/-- The concept pattern
`^\s*template\s*<[^>]+>\s*concept\s+(\w+)\s*=` (source line 265) tried
at one candidate position: every quantifier here is maximal munch
because its continuation starts with a character excluded from the
quantifier's class.  Returns the captured name and the suffix after the
matched `=`. -/
def conceptMatchAt (rest : List Char) : Option (List Char × List Char) :=
  let r1 := rest.drop (wsRun rest)
  match parseTemplateHeader r1 with
  | none => none
  | some r2 =>
    if "concept".data.isPrefixOf r2 then
      let r3 := r2.drop 7
      let k := wsRun r3
      if k = 0 then none
      else
        let r4 := r3.drop k
        let w := wordRun r4
        if w = 0 then none
        else
          let r5 := r4.drop w
          match r5.drop (wsRun r5) with
          | '=' :: r6 => some (r4.take w, r6)
          | _ => none
    else none

/-- The class/struct pattern
`^\s*(?:template\s*<[^>]+>\s*)?\s*(?:class|struct)\s+(\w+)` (source line
294) tried at one candidate position.  When the optional template group
parses but the continuation fails, the engine retries without the group
(the group has a unique parse, so that is the only backtracking point);
`class` and `struct` start with different letters, so the keyword
alternation is deterministic.  Returns the captured name and the suffix
after it (the match end used for the forward-declaration window). -/
def classMatchAt (rest : List Char) : Option (List Char × List Char) :=
  let r1 := rest.drop (wsRun rest)
  let body : List Char → Option (List Char × List Char) := fun r =>
    let r2 := r.drop (wsRun r)
    let afterKw :=
      if "class".data.isPrefixOf r2 then some (r2.drop 5)
      else if "struct".data.isPrefixOf r2 then some (r2.drop 6)
      else none
    match afterKw with
    | none => none
    | some r3 =>
      let k := wsRun r3
      if k = 0 then none
      else
        let r4 := r3.drop k
        let w := wordRun r4
        if w = 0 then none else some (r4.take w, r4.drop w)
  match parseTemplateHeader r1 with
  | some r' => body r' <|> body r1
  | none => body r1

/-- The `\s+(\w+)\s*\(` tail of the function pattern (source line 334):
mandatory whitespace, the captured name, optional whitespace, and the
consumed opening parenthesis. -/
def nameParen (r : List Char) : Option (List Char × List Char) :=
  let k := wsRun r
  if k = 0 then none
  else
    let r1 := r.drop k
    let w := wordRun r1
    if w = 0 then none
    else
      let r2 := r1.drop w
      match r2.drop (wsRun r2) with
      | '(' :: r3 => some (r1.take w, r3)
      | _ => none

/-- One iteration of the modifier loop
`(?:inline\s+|static\s+|constexpr\s+)*` (source line 332): the three
keywords start with different letters, so the alternation is
deterministic; each keyword must be followed by at least one whitespace
character. -/
def parseModOnce (r : List Char) : Option (List Char) :=
  let tryKw : List Char → Option (List Char) := fun kw =>
    if kw.isPrefixOf r then
      let r1 := r.drop kw.length
      let k := wsRun r1
      if k = 0 then none else some (r1.drop k)
    else none
  tryKw "inline".data <|> tryKw "static".data <|> tryKw "constexpr".data

/-- The positions reachable by 0, 1, 2, ... iterations of the modifier
loop, in increasing iteration count.  A greedy `(...)*` tries the
largest count first, so callers consult the reverse of this list. -/
def modsPositions : Nat → List Char → List (List Char)
  | 0, r => [r]
  | fuel + 1, r =>
    match parseModOnce r with
    | some r' => r :: modsPositions fuel r'
    | none => [r]

/-- The return-type alternation
`(?:auto|void|bool|int|size_t|[\w:]+(?:<[^>]*>)?)` followed by the
`\s+(\w+)\s*\(` tail (source lines 333-334), tried at one position.  The
five literals are tried in regex order; when a literal matches but the
tail fails, the next alternative is tried at the same position.  The
last alternative takes the maximal run of word/colon characters (a
shrunken run would be followed by a word character, on which `\s+`
fails), then an optional `<...>` group reaching the first `>`; if the
group parses but the tail fails, the tail is retried without the group
(where it necessarily fails on the `<`, mirroring the engine). -/
def typeThenName (r : List Char) : Option (List Char × List Char) :=
  let lit : List Char → Option (List Char × List Char) := fun kw =>
    if kw.isPrefixOf r then nameParen (r.drop kw.length) else none
  let wordColon : Option (List Char × List Char) :=
    let w := (r.takeWhile (fun c => pyWord c || c = ':')).length
    if w = 0 then none
    else
      let r1 := r.drop w
      match r1 with
      | '<' :: r2 =>
        let b := (r2.takeWhile (· ≠ '>')).length
        match r2.drop b with
        | '>' :: r3 => nameParen r3 <|> nameParen r1
        | _ => nameParen r1
      | _ => nameParen r1
  lit "auto".data <|> lit "void".data <|> lit "bool".data <|> lit "int".data
    <|> lit "size_t".data <|> wordColon

/-- The standalone-function pattern (source lines 330-335)
`^(?:template\s*<[^>]+>\s*\n?)?\s*(?:inline\s+|static\s+|constexpr\s+)*`
`(?:auto|void|bool|int|size_t|[\w:]+(?:<[^>]*>)?)\s+(\w+)\s*\(`
tried at one candidate position: optional template header (retried
without the header if the continuation fails), whitespace, the greedy
modifier loop backtracking from the largest iteration count downward,
then the type/name/parenthesis tail.  Returns the captured name and the
suffix after the consumed `(`. -/
def funcMatchAt (rest : List Char) : Option (List Char × List Char) :=
  let core : List Char → Option (List Char × List Char) := fun r =>
    let r1 := r.drop (wsRun r)
    ((modsPositions (r1.length + 1) r1).reverse).findSome? typeThenName
  match parseTemplateHeader rest with
  | some r' => core r' <|> core rest
  | none => core rest

/-- The `re.finditer` driver shared by the three `re.MULTILINE`-anchored
declaration patterns: try the pattern at every position where `^`
matches (offset 0 or just after a newline), emit
`(capture, match start, match length)` for each match, and resume
scanning at the match end (matches do not overlap).  A zero-width match
would advance by one character, mirroring `finditer`; the fuel is the
text length plus one. -/
def scanMatches (matchAt : List Char → Option (List Char × List Char)) :
    Nat → List Char → Nat → Bool → List (List Char × Nat × Nat)
  | 0, _, _, _ => []
  | fuel + 1, rest, pos, atLS =>
    match (if atLS then matchAt rest else none) with
    | some (cap, rem) =>
      let consumed := rest.length - rem.length
      if 0 < consumed then
        (cap, pos, consumed) ::
          scanMatches matchAt fuel rem (pos + consumed)
            (rest.getD (consumed - 1) ' ' = '\n')
      else
        match rest with
        | [] => []
        | c :: rs => scanMatches matchAt fuel rs (pos + 1) (c = '\n')
    | none =>
      match rest with
      | [] => []
      | c :: rs => scanMatches matchAt fuel rs (pos + 1) (c = '\n')

/-- All concept-pattern matches of a file's text (source line 266). -/
def conceptScan (full : List Char) : List (List Char × Nat × Nat) :=
  scanMatches conceptMatchAt (full.length + 1) full 0 true

/-- All class/struct-pattern matches of a file's text (source line 297),
before the forward-declaration filter. -/
def classScan (full : List Char) : List (List Char × Nat × Nat) :=
  scanMatches classMatchAt (full.length + 1) full 0 true

/-- All standalone-function-pattern matches of a file's text (source
line 338), before the keyword and comment-line filters. -/
def funcScan (full : List Char) : List (List Char × Nat × Nat) :=
  scanMatches funcMatchAt (full.length + 1) full 0 true

/-- The `DocIssue` dataclass (source lines 23-31). -/
structure DocIssue where
  file : String
  line : Nat
  issue_type : String
  entity_name : String
  message : String
  severity : String
deriving DecidableEq, Repr

/-- The `FileAudit` dataclass (source lines 33-45). -/
structure FileAudit where
  path : String
  has_file_brief : Bool := false
  has_examples : Bool := false
  function_count : Nat := 0
  documented_functions : Nat := 0
  class_count : Nat := 0
  documented_classes : Nat := 0
  concept_count : Nat := 0
  documented_concepts : Nat := 0
  issues : List DocIssue := []
deriving DecidableEq, Repr

/-- A single-quote character, used to build the issue messages. -/
def q : String :=
  ⟨['\x27']⟩

/-- `re.search(r'[@\\](?:brief|file)\s+\w', content[:2000])` (source line
239): somewhere in the prefix, `@` or `\` followed by `brief` or `file`,
at least one whitespace character, then a word character (the maximal
whitespace run must be followed by a word character, since a shrunken
`\s+` would leave `\w` facing whitespace). -/
def fileBriefSearch : List Char → Bool
  | [] => false
  | c :: rest =>
    let check : List Char → Bool := fun kw =>
      kw.isPrefixOf rest &&
        (let after := rest.drop kw.length
         let k := wsRun after
         decide (1 ≤ k) &&
           match after.drop k with
           | d :: _ => pyWord d
           | [] => false)
    ((c = '@' || c = '\\') && (check "brief".data || check "file".data))
      || fileBriefSearch rest

/-- `os.path.basename(filepath)` (source line 244): the final path
component. -/
def pyBasename (filepath : String) : String :=
  ⟨(filepath.data.reverse.takeWhile (· ≠ '/')).reverse⟩

/-- The forward-declaration filter of the class/struct loop (source
lines 299-300): take the 50 characters after the match end, restrict to
the same source line (`rest_of_line.split('\n')[0]`), and skip the match
when that window contains a `;` and does not contain a `{`. -/
def forward_decl_skip (full : List Char) (matchEnd : Nat) : Bool :=
  let rest := (full.drop matchEnd).take 50
  let firstLine := (pySplitNL rest).headD []
  firstLine.contains ';' && !(firstLine.contains '\x7b')

/-- The control-flow keywords excluded by the function loop (source line
341). -/
def funcKeywords : List String :=
  ["if", "for", "while", "switch", "return", "sizeof", "alignof", "decltype"]

/-- The originating-line test of the function loop (source lines
344-346): the text from the start of the match's source line
(`content.rfind('\n', 0, match.start()) + 1`) through the match end,
stripped; the match is skipped when it starts with `//` or `/*`. -/
def funcLineIsComment (full : List Char) (start len : Nat) : Bool :=
  let linePre := ((full.take start).reverse.takeWhile (· ≠ '\n')).reverse
  let line := linePre ++ (full.drop start).take len
  let s := pyStrip line
  "//".data.isPrefixOf s || "/*".data.isPrefixOf s

/-- `content[:match.start()].count('\n') + 1` (source lines 269, 305,
350): the 1-based line number of a match. -/
def lineNumOf (full : List Char) (start : Nat) : Nat :=
  (full.take start).count '\n' + 1

/-- The concept loop of `audit_file` (source lines 266-290), folded in
match order over `(count, documented, issues)`. -/
def conceptFold (filepath : String) (full : List Char)
    (lines : List (List Char)) : Nat × Nat × List DocIssue :=
  (conceptScan full).foldl
    (fun acc m =>
      let name : String := ⟨m.1⟩
      let line_num := lineNumOf full m.2.1
      match extract_doxygen_comment lines (line_num - 1) with
      | some (text, _, _) =>
        if (parse_comment_tags ⟨text⟩).brief ≠ [] then
          (acc.1 + 1, acc.2.1 + 1, acc.2.2)
        else
          (acc.1 + 1, acc.2.1,
           acc.2.2 ++ [⟨filepath, line_num, "missing_brief", name,
             "Concept " ++ q ++ name ++ q ++ " lacks @brief description",
             "warning"⟩])
      | none =>
        (acc.1 + 1, acc.2.1,
         acc.2.2 ++ [⟨filepath, line_num, "undocumented", name,
           "Concept " ++ q ++ name ++ q ++ " has no documentation",
           "warning"⟩]))
    (0, 0, [])

/-- The class/struct loop of `audit_file` (source lines 297-326), folded
in match order over `(count, documented, issues)`; forward declarations
are filtered by `forward_decl_skip` before counting, and the issue
severity is `info`. -/
def classFold (filepath : String) (full : List Char)
    (lines : List (List Char)) : Nat × Nat × List DocIssue :=
  (classScan full).foldl
    (fun acc m =>
      if forward_decl_skip full (m.2.1 + m.2.2) then acc
      else
        let name : String := ⟨m.1⟩
        let line_num := lineNumOf full m.2.1
        match extract_doxygen_comment lines (line_num - 1) with
        | some (text, _, _) =>
          if (parse_comment_tags ⟨text⟩).brief ≠ [] then
            (acc.1 + 1, acc.2.1 + 1, acc.2.2)
          else
            (acc.1 + 1, acc.2.1,
             acc.2.2 ++ [⟨filepath, line_num, "missing_brief", name,
               "Class " ++ q ++ name ++ q ++ " lacks @brief description",
               "info"⟩])
        | none =>
          (acc.1 + 1, acc.2.1,
           acc.2.2 ++ [⟨filepath, line_num, "undocumented", name,
             "Class " ++ q ++ name ++ q ++ " has no documentation",
             "info"⟩]))
    (0, 0, [])

/-- The standalone-function loop of `audit_file` (source lines 338-358),
folded in match order over `(count, documented)`: control-flow keywords
and matches originating on comment lines are skipped, and no issue is
ever emitted for a function. -/
def funcFold (full : List Char) (lines : List (List Char)) : Nat × Nat :=
  (funcScan full).foldl
    (fun acc m =>
      let name : String := ⟨m.1⟩
      if name ∈ funcKeywords then acc
      else if funcLineIsComment full m.2.1 m.2.2 then acc
      else
        let line_num := lineNumOf full m.2.1
        match extract_doxygen_comment lines (line_num - 1) with
        | some (text, _, _) =>
          if (parse_comment_tags ⟨text⟩).brief ≠ [] then
            (acc.1 + 1, acc.2 + 1)
          else (acc.1 + 1, acc.2)
        | none => (acc.1 + 1, acc.2))
    (0, 0)

/-- The successful-read body of `audit_file` (source lines 238-360): the
file-brief check on the first 2000 characters (emitting a
`missing_file_brief` warning when absent), the example check on the
whole text, then the concept, class and function loops.  Issues appear
in discovery order: the file-brief issue first, then concept issues,
then class issues (functions emit none). -/
def audit_content (filepath : String) (content : String) : FileAudit :=
  let full := content.data
  let lines := pySplitNL full
  let hfb := fileBriefSearch (full.take 2000)
  let briefIssues : List DocIssue :=
    if hfb then []
    else [⟨filepath, 1, "missing_file_brief", pyBasename filepath,
      "File lacks @file or @brief documentation", "warning"⟩]
  let hex := exampleSearch full
  let cF := conceptFold filepath full lines
  let clF := classFold filepath full lines
  let fF := funcFold full lines
  { path := filepath
    has_file_brief := hfb
    has_examples := hex
    function_count := fF.1
    documented_functions := fF.2
    class_count := clF.1
    documented_classes := clF.2.1
    concept_count := cF.1
    documented_concepts := cF.2.1
    issues := briefIssues ++ cF.2.2 ++ clF.2.2 }

/-- `audit_file` (source lines 223-360).  The file read is the only
effectful step; it is modelled by an `Except` argument: a read failure
(the `except` branch, source lines 231-236) returns immediately with a
single `read_error` issue of severity `error` and an otherwise
default-initialized `FileAudit`; a successful read runs
`audit_content`. -/
def audit_file (filepath : String) (readResult : Except String String) :
    FileAudit :=
  match readResult with
  | .error e =>
    { path := filepath
      issues := [⟨filepath, 0, "read_error", "",
        "Could not read file: " ++ e, "error"⟩] }
  | .ok content => audit_content filepath content

/-- Python's floor division `a // b` on non-negative integers: raises
`ZeroDivisionError` when `b = 0`, modelled as `none`. -/
def pyFloorDiv (a b : Nat) : Option Nat :=
  if b = 0 then none else some (a / b)

/-- The `well_documented` test of the classification (source line 399):
`audit.has_file_brief and len(audit.issues) <= 2`. -/
def bucket_well (a : FileAudit) : Bool :=
  a.has_file_brief && decide (a.issues.length ≤ 2)

/-- The `needs_work` test of the classification (source line 401), the
raw `elif` condition:
`audit.has_file_brief or audit.documented_concepts > 0 or audit.documented_classes > 0`. -/
def bucket_needs (a : FileAudit) : Bool :=
  a.has_file_brief || decide (0 < a.documented_concepts)
    || decide (0 < a.documented_classes)

/-- The classification loop of `generate_report` (source lines 393-404):
each audit's path is appended to exactly one of the three lists,
`well_documented` when `bucket_well` holds, else `needs_work` when
`bucket_needs` holds, else `undocumented`.  (`os.path.relpath`, a
filesystem-relative rendering of the path, is modelled as the path
itself.) -/
def classify_files (audits : List FileAudit) :
    List String × List String × List String :=
  audits.foldl
    (fun acc a =>
      if bucket_well a then (acc.1 ++ [a.path], acc.2.1, acc.2.2)
      else if bucket_needs a then (acc.1, acc.2.1 ++ [a.path], acc.2.2)
      else (acc.1, acc.2.1, acc.2.2 ++ [a.path]))
    ([], [], [])

/-- The data of the report built by `generate_report` (source lines
362-437), stripped of its fixed text framing: the summary statistics
with the two percentage lines, and the three classification lists (their
lexicographic sorting at output time is rendering, not data). -/
structure Report where
  total_files : Nat
  files_with_brief : Nat
  brief_pct : Nat
  files_with_examples : Nat
  examples_pct : Nat
  total_concepts : Nat
  documented_concepts : Nat
  total_classes : Nat
  documented_classes : Nat
  total_functions : Nat
  documented_functions : Nat
  well_documented : List String
  needs_work : List String
  undocumented : List String
deriving DecidableEq, Repr

/-- `generate_report` (source lines 362-437).  The summary lines at
source lines 384-385 compute `100*files_with_brief//total_files` and
`100*files_with_examples//total_files` unconditionally, so with an empty
audit list (`total_files = 0`) the Python function raises
`ZeroDivisionError`; the failure is modelled by `none`. -/
def generate_report (audits : List FileAudit) : Option Report :=
  let total_files := audits.length
  let files_with_brief := (audits.filter (·.has_file_brief)).length
  let files_with_examples := (audits.filter (·.has_examples)).length
  let total_concepts := (audits.map (·.concept_count)).sum
  let documented_concepts := (audits.map (·.documented_concepts)).sum
  let total_classes := (audits.map (·.class_count)).sum
  let documented_classes := (audits.map (·.documented_classes)).sum
  let total_functions := (audits.map (·.function_count)).sum
  let documented_functions := (audits.map (·.documented_functions)).sum
  match pyFloorDiv (100 * files_with_brief) total_files,
        pyFloorDiv (100 * files_with_examples) total_files with
  | some brief_pct, some examples_pct =>
    let c := classify_files audits
    some
      { total_files := total_files
        files_with_brief := files_with_brief
        brief_pct := brief_pct
        files_with_examples := files_with_examples
        examples_pct := examples_pct
        total_concepts := total_concepts
        documented_concepts := documented_concepts
        total_classes := total_classes
        documented_classes := documented_classes
        total_functions := total_functions
        documented_functions := documented_functions
        well_documented := c.1
        needs_work := c.2.1
        undocumented := c.2.2 }
  | _, _ => none

/-- Claim C1.  The claim states that coverage percentages are
`floor(100*documented/total)` and that no division is attempted when the
total is 0, so that report generation succeeds on an empty corpus.  The
code divides unconditionally (source line 384), so `generate_report` on
the empty audit list fails with a `ZeroDivisionError`, modelled here as
`none`: the empty corpus is exactly the failing input. -/
theorem generate_report_empty_corpus_fails : generate_report [] = none := by
  rfl

/-- Counterexample to claim C2: the comment `"@brief a @brief b"`
contains two occurrences of the brief tag marker, but the brief list of
the resulting tag map has a single entry (the `re.search` for brief only
ever finds the first match, whose lazy capture runs through the second
marker because `brief` is not in its stop set). -/
theorem parse_comment_tags_brief_no_accumulation :
    (parse_comment_tags "@brief a @brief b").brief = ["a @brief b"] := by
  decide

/-- Claim C2 (amended).  `@param` and `@tparam` occurrences all
accumulate (one list entry per `finditer` match), but `@brief` and
`@return` are looked up with `re.search`, so their lists hold at most
one entry — the first occurrence — however many markers the comment
contains. -/
theorem parse_comment_tags_brief_return_at_most_one (c : String) :
    (parse_comment_tags c).brief.length ≤ 1 ∧
    (parse_comment_tags c).ret.length ≤ 1 := by
  unfold parse_comment_tags
  constructor
  · split
    · simp [emptyTags]
    · cases h : searchTagCapture "brief".data (tagStop briefStopKws) c.data <;>
        simp [h]
  · split
    · simp [emptyTags]
    · cases h : searchTagCapture "return".data (tagStop returnStopKws) c.data <;>
        simp [h]

/-- Claim C10.  Every tag map produced by the parser carries all seven
recognized tag fields (they are the fields of `Tags`, mirroring the
fixed-key dict of source lines 98-106), and the `note` and `see` entries
are empty for every input comment: no code path appends to them, even
when the comment contains `@note` or `@see` markers. -/
theorem parse_comment_tags_note_see_empty (c : String) :
    (parse_comment_tags c).note = [] ∧ (parse_comment_tags c).see = [] := by
  unfold parse_comment_tags
  split <;> simp [emptyTags]

/-- Claim C6.  On `"foo(std::vector<std::pair<int,int>> v, int n)"` the
function-parameter extractor returns exactly `["v", "n"]`: the commas
inside the nested template argument list are at positive angle-bracket
depth and do not split, and the bare keyword `int` is rejected as a
name only when it stands alone (here each fragment ends in a real
identifier). -/
theorem extract_function_params_nested_template :
    extract_function_params "foo(std::vector<std::pair<int,int>> v, int n)"
      = ["v", "n"] := by
  decide

/-- Claim C7.  Auditing `"/// @brief Does X\nvoid foo();\n"`: the
concept and class matchers find nothing, the function matcher counts one
function whose preceding `///` comment carries a brief tag, so
`documented_functions` is 1, and no issue at all is emitted (the file
brief is present and undocumented standalone functions never produce an
issue). -/
theorem audit_content_function_scenario :
    (audit_content "a.hpp" "/// @brief Does X\nvoid foo();\n").concept_count = 0 ∧
    (audit_content "a.hpp" "/// @brief Does X\nvoid foo();\n").class_count = 0 ∧
    (audit_content "a.hpp" "/// @brief Does X\nvoid foo();\n").function_count = 1 ∧
    (audit_content "a.hpp" "/// @brief Does X\nvoid foo();\n").documented_functions = 1 ∧
    (audit_content "a.hpp" "/// @brief Does X\nvoid foo();\n").issues = [] := by
  decide

/-- Claim C9.  A failed file read returns immediately: the resulting
`FileAudit` holds exactly one issue, of type `read_error` and severity
`error`, every count is zero and both flags are false — the audit body
is never entered. -/
theorem audit_file_read_error (fp e : String) :
    audit_file fp (.error e) =
      { path := fp
        has_file_brief := false
        has_examples := false
        function_count := 0
        documented_functions := 0
        class_count := 0
        documented_classes := 0
        concept_count := 0
        documented_concepts := 0
        issues := [⟨fp, 0, "read_error", "",
          "Could not read file: " ++ e, "error"⟩] } := by
  rfl

/-- Counterexample to claim C3: in `"class Foo; a{}"` (braces written as
their escapes) the remainder of the match's source line is `"; a{}"`,
where a `;` appears before any `{`; the claim says such a match must not
be counted, but the code's window test only checks presence of `;` and
absence of `{`, so the `{` in the window keeps the match and
`class_count` is 1. -/
theorem class_semicolon_before_brace_still_counted :
    (audit_content "a.hpp" "class Foo; a\x7b\x7d").class_count = 1 ∧
    ((("class Foo; a\x7b\x7d".data.drop 9).take 50).takeWhile (· ≠ '\n')).indexOf ';'
      < ((("class Foo; a\x7b\x7d".data.drop 9).take 50).takeWhile (· ≠ '\n')).indexOf '\x7b' := by
  decide

/-- `pySplitNL` never returns the empty list (a split always has at
least one part). -/
theorem pySplitNL_ne_nil (l : List Char) : pySplitNL l ≠ [] := by
  cases l with
  | nil => simp [pySplitNL]
  | cons c r =>
    by_cases h : c = '\n'
    · simp [pySplitNL, h]
    · simp only [pySplitNL, h, if_false]
      cases pySplitNL r <;> simp

/-- The first part of `pySplitNL` is the run of characters before the
first newline. -/
theorem pySplitNL_headD (l : List Char) :
    (pySplitNL l).headD [] = l.takeWhile (· ≠ '\n') := by
  induction l with
  | nil => simp [pySplitNL]
  | cons c r ih =>
    by_cases h : c = '\n'
    · simp [pySplitNL, h, List.takeWhile]
    · simp only [pySplitNL, h, if_false]
      have hne := pySplitNL_ne_nil r
      cases hr : pySplitNL r with
      | nil => exact absurd hr hne
      | cons p ps =>
        rw [hr] at ih
        simp only [List.headD_cons] at ih ⊢
        simp only [ne_eq, decide_not] at ih ⊢
        simp [List.takeWhile, h, ih]

/-- Claim C3 (amended).  The class/struct matcher discards a match as a
forward declaration exactly when the remainder of the match's source
line, truncated to the 50 characters after the match, contains a `;` and
contains no `{` — a presence test, not an order test; and on the input
`"class Foo;\n"` the class count is 0 (the window holds a `;` and no
`{`). -/
theorem forward_decl_skip_presence_rule :
    (∀ (full : List Char) (e : Nat),
      forward_decl_skip full e =
        ((((full.drop e).take 50).takeWhile (· ≠ '\n')).contains ';' &&
          !((((full.drop e).take 50).takeWhile (· ≠ '\n')).contains '\x7b'))) ∧
    (audit_content "a.hpp" "class Foo;\n").class_count = 0 := by
  constructor
  · intro full e
    simp only [forward_decl_skip]
    rw [pySplitNL_headD]
  · decide

/-- Counterexample to claim C4: on the template content
`"typename T, typename T"` the first extraction loop appends each match
unconditionally, so the result is `["T", "T"]` — a duplicate name. -/
theorem extract_template_params_duplicate :
    extract_template_params "template<typename T, typename T>" = ["T", "T"] ∧
    ¬ (extract_template_params "template<typename T, typename T>").Nodup := by
  decide

/-- The membership-guarded append fold of the second template-parameter
loop preserves freedom from duplicates. -/
theorem guarded_append_fold_nodup (ms : List String) :
    ∀ acc : List String, acc.Nodup →
      (ms.foldl (fun params n => if n ∈ params then params else params ++ [n])
        acc).Nodup := by
  induction ms with
  | nil => intro acc h; simpa using h
  | cons m ms ih =>
    intro acc h
    simp only [List.foldl_cons]
    by_cases hm : m ∈ acc
    · simpa [hm] using ih acc h
    · rw [if_neg hm]
      refine ih (acc ++ [m]) ?_
      simp [List.nodup_append, h, hm]

/-- Claim C4 (amended).  The template-parameter extractor appends names
in match order; its second pass (the non-type-keyword loop) skips every
name already captured, so it never introduces a duplicate — whenever the
first pass is duplicate-free, the whole result is duplicate-free.  The
first pass, however, appends unconditionally, so duplicates among its
own matches survive. -/
theorem extract_template_params_nodup_of_first_pass (d : String)
    (h : (templateFirstPass d).Nodup) : (extract_template_params d).Nodup := by
  unfold extract_template_params
  exact guarded_append_fold_nodup _ _ h

/-- Witness for the amended claim C4 at the declaration
`"template<typename T, class U>"`: its first pass `["T", "U"]` is
duplicate-free, and so is the full result. -/
theorem extract_template_params_nodup_witness :
    (templateFirstPass "template<typename T, class U>").Nodup ∧
    (extract_template_params "template<typename T, class U>").Nodup :=
  ⟨by decide, extract_template_params_nodup_of_first_pass _ (by decide)⟩

/-- The classification fold characterized by filters: relative to an
arbitrary accumulator, each audit's path is appended to the
`well_documented` list when `bucket_well` holds, to the `needs_work`
list when `bucket_well` fails and `bucket_needs` holds, and to the
`undocumented` list otherwise. -/
theorem classify_files_foldl_eq (l : List FileAudit) :
    ∀ acc : List String × List String × List String,
      l.foldl
        (fun acc a =>
          if bucket_well a then (acc.1 ++ [a.path], acc.2.1, acc.2.2)
          else if bucket_needs a then (acc.1, acc.2.1 ++ [a.path], acc.2.2)
          else (acc.1, acc.2.1, acc.2.2 ++ [a.path])) acc
      = (acc.1 ++ (l.filter (fun a => bucket_well a)).map (·.path),
         acc.2.1 ++ (l.filter (fun a => !bucket_well a && bucket_needs a)).map (·.path),
         acc.2.2 ++ (l.filter (fun a => !bucket_well a && !bucket_needs a)).map (·.path)) := by
  induction l with
  | nil => intro acc; simp
  | cons a l ih =>
    intro acc
    simp only [List.foldl_cons, List.filter_cons]
    by_cases hw : bucket_well a
    · simp [hw, ih, List.append_assoc]
    · by_cases hn : bucket_needs a <;> simp [hw, hn, ih, List.append_assoc]

/-- Claim C8.  The classifier assigns each audited file to exactly one
bucket by the priority rule: `well_documented` iff `has_file_brief` and
at most two issues; else `needs_work` iff `has_file_brief` or a
documented concept or a documented class exists; else `undocumented`.
The three conditions are mutually exclusive and exhaustive, and the
three lists together are a permutation of the full audited path list. -/
theorem classify_files_partition (audits : List FileAudit) :
    (classify_files audits).1
        = (audits.filter (fun a => bucket_well a)).map (·.path) ∧
    (classify_files audits).2.1
        = (audits.filter (fun a => !bucket_well a && bucket_needs a)).map (·.path) ∧
    (classify_files audits).2.2
        = (audits.filter (fun a => !bucket_well a && !bucket_needs a)).map (·.path) ∧
    ((classify_files audits).1 ++ (classify_files audits).2.1 ++
        (classify_files audits).2.2).Perm (audits.map (·.path)) ∧
    ∀ a : FileAudit,
      (bucket_well a = true ∨ (!bucket_well a && bucket_needs a) = true ∨
        (!bucket_well a && !bucket_needs a) = true) ∧
      ¬(bucket_well a = true ∧ (!bucket_well a && bucket_needs a) = true) ∧
      ¬(bucket_well a = true ∧ (!bucket_well a && !bucket_needs a) = true) ∧
      ¬((!bucket_well a && bucket_needs a) = true ∧
        (!bucket_well a && !bucket_needs a) = true) := by
  have hmain := classify_files_foldl_eq audits ([], [], [])
  simp only [List.nil_append] at hmain
  have h1 : (classify_files audits).1
      = (audits.filter (fun a => bucket_well a)).map (·.path) := by
    unfold classify_files; rw [hmain]
  have h2 : (classify_files audits).2.1
      = (audits.filter (fun a => !bucket_well a && bucket_needs a)).map (·.path) := by
    unfold classify_files; rw [hmain]
  have h3 : (classify_files audits).2.2
      = (audits.filter (fun a => !bucket_well a && !bucket_needs a)).map (·.path) := by
    unfold classify_files; rw [hmain]
  refine ⟨h1, h2, h3, ?_, ?_⟩
  · rw [h1, h2, h3]
    have hN : audits.filter (fun a => !bucket_well a && bucket_needs a)
        = (audits.filter (fun a => !bucket_well a)).filter (fun a => bucket_needs a) := by
      rw [List.filter_filter]
      exact List.filter_congr fun x _ => by rw [Bool.and_comm]
    have hU : audits.filter (fun a => !bucket_well a && !bucket_needs a)
        = (audits.filter (fun a => !bucket_well a)).filter (fun a => !bucket_needs a) := by
      rw [List.filter_filter]
      exact List.filter_congr fun x _ => by rw [Bool.and_comm]
    rw [hN, hU, List.append_assoc, ← List.map_append, ← List.map_append]
    refine List.Perm.map _ ?_
    have p1 : ((audits.filter (fun a => !bucket_well a)).filter (fun a => bucket_needs a)
        ++ (audits.filter (fun a => !bucket_well a)).filter (fun a => !bucket_needs a)).Perm
        (audits.filter (fun a => !bucket_well a)) :=
      List.filter_append_perm _ _
    exact (List.Perm.append_left _ p1).trans (List.filter_append_perm _ _)
  · intro a
    cases hb : bucket_well a <;> cases hn : bucket_needs a <;> simp [hb, hn]

/-- A `///` line is not blank. -/
theorem isTripleSlash_ne_blank {l : List Char} (h : isTripleSlash l = true) :
    pyStrip l ≠ [] := by
  intro he
  unfold isTripleSlash at h
  rw [he] at h
  exact absurd h (by decide)

/-- The blank-skipping walk started inside a blank region above a
non-blank line `e` lands exactly on `e`. -/
theorem firstNonblankDown_lands (lines : List (List Char)) (e : Nat)
    (hne : pyStrip (lines.getD e []) ≠ []) :
    ∀ j, e ≤ j → (∀ i, i ≤ j → e < i → pyStrip (lines.getD i []) = []) →
      firstNonblankDown lines j = some e := by
  intro j
  induction j with
  | zero =>
    intro hej _
    have h0 : e = 0 := Nat.le_zero.mp hej
    subst h0
    simp only [firstNonblankDown]
    rw [if_neg hne]
  | succ j ih =>
    intro hej hblank
    rcases Nat.lt_or_ge e (j + 1) with hlt | hge
    · have hbl : pyStrip (lines.getD (j + 1) []) = [] :=
        hblank (j + 1) (Nat.le_refl _) hlt
      simp only [firstNonblankDown]
      rw [if_pos hbl]
      exact ih (Nat.lt_succ_iff.mp hlt)
        (fun i hij hei => hblank i (Nat.le_succ_of_le hij) hei)
    · have h0 : e = j + 1 := Nat.le_antisymm hej hge
      subst h0
      simp only [firstNonblankDown]
      rw [if_neg hne]

/-- The `///` run collection stops immediately at a non-`///` line. -/
theorem runAt_stop (lines : List (List Char)) (e : Nat)
    (h : isTripleSlash (lines.getD e []) = false) : runAt lines e = [] := by
  cases e with
  | zero => simp only [runAt]; rw [h]; simp
  | succ n => simp only [runAt]; rw [h]; simp

/-- The `///` run collection at a `///` line is non-empty. -/
theorem runAt_ne_nil (lines : List (List Char)) (e : Nat)
    (h : isTripleSlash (lines.getD e []) = true) : runAt lines e ≠ [] := by
  cases e with
  | zero => simp only [runAt]; rw [h]; simp
  | succ n => simp only [runAt]; rw [h]; simp

/-- Length of an in-range inclusive slice. -/
theorem sliceLines_length (lines : List (List Char)) (s e : Nat)
    (hse : s ≤ e) (he : e < lines.length) :
    (sliceLines lines s e).length = e + 1 - s := by
  unfold sliceLines
  rw [List.length_take, List.length_drop]
  omega

/-- Over a maximal `///` run from `s` to `e` (each line in the range is
a `///` line and either `s` is the top of the file or line `s - 1` is
not a `///` line), the collection walk returns exactly the slice
`lines[s..e]`. -/
theorem runAt_slice (lines : List (List Char)) :
    ∀ e s : Nat, s ≤ e → e < lines.length →
      (∀ i, i < e + 1 → s ≤ i → isTripleSlash (lines.getD i []) = true) →
      (s = 0 ∨ isTripleSlash (lines.getD (s - 1) []) = false) →
      runAt lines e = sliceLines lines s e := by
  intro e
  induction e with
  | zero =>
    intro s hse he hrun _
    have hs : s = 0 := Nat.le_zero.mp hse
    subst hs
    have h0 : isTripleSlash (lines.getD 0 []) = true :=
      hrun 0 (by omega) (Nat.le_refl _)
    simp only [runAt]
    rw [h0]
    simp only [if_true]
    unfold sliceLines
    rw [List.drop_zero]
    cases lines with
    | nil => simp at he
    | cons a t => simp [List.getD_cons_zero]
  | succ e ih =>
    intro s hse he hrun hmax
    have hslash : isTripleSlash (lines.getD (e + 1) []) = true :=
      hrun (e + 1) (by omega) hse
    simp only [runAt]
    rw [hslash]
    simp only [if_true]
    rcases Nat.lt_or_ge s (e + 1) with hlt | hge
    · have hse' : s ≤ e := Nat.lt_succ_iff.mp hlt
      have he' : e < lines.length := by omega
      rw [ih s hse' he' (fun i hi hs => hrun i (by omega) hs) hmax]
      unfold sliceLines
      have h1 : e + 1 - s < (lines.drop s).length := by
        rw [List.length_drop]; omega
      have h3 : e + 1 + 1 - s = (e + 1 - s) + 1 := by omega
      have h2 : (lines.drop s)[e + 1 - s] = lines[e + 1] := by
        rw [List.getElem_drop]
        congr 1
        omega
      rw [h3, List.take_succ]
      have h4 : (lines.drop s)[e + 1 - s]? = some (lines[e + 1]) := by
        rw [List.getElem?_eq_getElem h1, h2]
      rw [h4]
      have h5 : lines.getD (e + 1) [] = lines[e + 1] :=
        List.getD_eq_getElem lines [] he
      rw [h5]
      simp [Option.toList]
    · have hs : s = e + 1 := Nat.le_antisymm hse hge
      subst hs
      have hstop : isTripleSlash (lines.getD e []) = false := by
        rcases hmax with h0 | hprev
        · omega
        · simpa using hprev
      rw [runAt_stop lines e hstop]
      unfold sliceLines
      have h2 : e + 1 + 1 - (e + 1) = 1 := by omega
      have h3 : lines.drop (e + 1) = lines[e + 1] :: lines.drop (e + 1 + 1) :=
        List.drop_eq_getElem_cons he
      rw [h2, h3]
      have h5 : lines.getD (e + 1) [] = lines[e + 1] :=
        List.getD_eq_getElem lines [] he
      rw [h5]
      simp only [List.nil_append]
      rfl

/-- Claim C5.  Round-trip of the Comment Locator on `///` runs: when
lines `s..e` form a maximal contiguous run of `///` doc-comment lines
(maximal because line `s - 1`, if any, is not such a line), all lines
strictly between `e` and a declaration line `d` are blank, and the
locator is queried for the declaration at line `d` (so its backward walk
starts at the line immediately preceding `d`), it returns exactly that
run — the slice `lines[s..e]` joined with newlines — together with the
run's own start and end line positions `s` and `e`. -/
theorem extract_doxygen_comment_roundtrip (lines : List (List Char))
    (s e d : Nat) (hse : s ≤ e) (hed : e < d) (hd : d ≤ lines.length)
    (hrun : ∀ i, i < e + 1 → s ≤ i → isTripleSlash (lines.getD i []) = true)
    (hmax : s = 0 ∨ isTripleSlash (lines.getD (s - 1) []) = false)
    (hblank : ∀ i, i < d → e < i → pyStrip (lines.getD i []) = []) :
    extract_doxygen_comment lines d
      = some (joinNL (sliceLines lines s e), s, e) := by
  have he : e < lines.length := by omega
  have hslashE : isTripleSlash (lines.getD e []) = true :=
    hrun e (by omega) hse
  have hne : pyStrip (lines.getD e []) ≠ [] := isTripleSlash_ne_blank hslashE
  have hfnb : firstNonblankDown lines (d - 1) = some e :=
    firstNonblankDown_lands lines e hne (d - 1) (by omega)
      (fun i hij hei => hblank i (by omega) hei)
  have hrs : runAt lines e = sliceLines lines s e :=
    runAt_slice lines e s hse he hrun hmax
  have hrnn : sliceLines lines s e ≠ [] := by
    rw [← hrs]; exact runAt_ne_nil lines e hslashE
  have hlen : (sliceLines lines s e).length = e + 1 - s :=
    sliceLines_length lines s e hse he
  unfold extract_doxygen_comment
  rw [if_neg (by omega : ¬ d = 0), hfnb]
  simp only [hrs]
  rw [if_pos hrnn, hlen]
  have hsub : e + 1 - (e + 1 - s) = s := by omega
  rw [hsub]

/-- Witness for claim C5: the two-line run `["/// a", "/// b"]` at lines
0-1, separated from the declaration at line 3 by one blank line, is
recovered verbatim with its own positions. -/
theorem extract_doxygen_comment_roundtrip_witness :
    extract_doxygen_comment
      ["/// a".data, "/// b".data, [], "void f();".data] 3
      = some ("/// a\n/// b".data, 0, 1) := by
  have h := extract_doxygen_comment_roundtrip
    ["/// a".data, "/// b".data, [], "void f();".data] 0 1 3
    (by decide) (by decide) (by decide) (by decide) (by decide) (by decide)
  exact h.trans (by decide)
